import Mathlib

/-!
Shallow embedding of the bump transaction workflow from `src/index.ts`
(itmr-dev/bump). The module-level mutable state of the script is

  let interrupted = false;
  let isExiting = false;
  let cleanup: { type: 'stash' | 'version', data?: any }[] = [];

External effects (git calls, npm calls, interactive prompts, arrival of the
SIGINT flag at each point where the code reads `interrupted`) are supplied by
oracles, so every theorem quantifies over all possible outcomes of the
external world.  Reads of the `interrupted` flag are indexed by their
syntactic site in `main` (0: line 366, 1: line 377, 2: line 392, 3: line 402,
4: line 419, 5: line 458, 6: line 469, 7: line 484).
-/

/-- One entry of the `cleanup` ledger: `{ type: 'stash' }` or
`{ type: 'version', data: { tag } }` (the tag is read back as `item.data?.tag`,
hence an `Option`). -/
inductive CleanupItem where
  | stash : CleanupItem
  | version : Option String → CleanupItem
  deriving DecidableEq, Repr

/-- The git operations `performCleanup` can issue while replaying the ledger:
`git stash pop`, `git reset --hard HEAD~1`, `git tag --delete <tag>`. -/
inductive GitOp where
  | stashPop : GitOp
  | hardReset : GitOp
  | deleteTag : String → GitOp
  deriving DecidableEq, Repr

/-- Replay of a single ledger item inside `performCleanup`'s loop body.
`ok n` says whether the `n`-th git call issued during the replay succeeds.
For a `version` item the code runs `git reset --hard HEAD~1` and then, only if
the reset did not throw and a tag was recorded, `git tag --delete tag`; a
`stash` item runs `git stash pop`.  Returns the attempted operations and the
next call counter.  Failures are caught per item (the `try/catch` is inside
the `for` loop), so they never escape. -/
def replayItem (ok : Nat → Bool) (n : Nat) : CleanupItem → List GitOp × Nat
  | CleanupItem.stash => ([GitOp.stashPop], n + 1)
  | CleanupItem.version t =>
      if ok n then
        match t with
        | some tag => ([GitOp.hardReset, GitOp.deleteTag tag], n + 2)
        | none => ([GitOp.hardReset], n + 1)
      else ([GitOp.hardReset], n + 1)

/-- The `for (const item of cleanup.reverse())` loop of `performCleanup`,
already applied to the reversed list. -/
def replayLoop (ok : Nat → Bool) (n : Nat) : List CleanupItem → List GitOp
  | [] => []
  | i :: rest =>
      let p := replayItem ok n i
      p.1 ++ replayLoop ok p.2 rest

/-- `performCleanup` from `src/index.ts`: iterates `cleanup.reverse()` —
JavaScript `Array.prototype.reverse` reverses the array **in place** and the
function never reassigns `cleanup` — attempting the inverse operation of every
item, swallowing per-item failures.  Returns the attempted git operations and
the value the `cleanup` array holds afterwards (the reversed ledger: the code
contains no `cleanup = []` on this path). -/
def performCleanup (ok : Nat → Bool) (ledger : List CleanupItem) :
    List GitOp × List CleanupItem :=
  (replayLoop ok 0 ledger.reverse, ledger.reverse)

/-- The first (unconditionally attempted) inverse operation of a ledger item:
`git stash pop` for a stash entry, `git reset --hard HEAD~1` for a version
entry. -/
def primaryOf : CleanupItem → GitOp
  | CleanupItem.stash => GitOp.stashPop
  | CleanupItem.version _ => GitOp.hardReset

/-- Selects the primary inverse operations (stash pop / hard reset) from a
replay trace, dropping the dependent `deleteTag` calls. -/
def isPrimary : GitOp → Bool
  | GitOp.stashPop => true
  | GitOp.hardReset => true
  | GitOp.deleteTag _ => false

/-- The full inverse of a ledger item when no git call fails: stash pop for a
stash entry; hard reset plus tag deletion (when a tag was recorded) for a
version entry. -/
def fullOps : CleanupItem → List GitOp
  | CleanupItem.stash => [GitOp.stashPop]
  | CleanupItem.version none => [GitOp.hardReset]
  | CleanupItem.version (some tag) => [GitOp.hardReset, GitOp.deleteTag tag]

/-- Is a ledger entry the stash entry? -/
def isStash : CleanupItem → Bool
  | CleanupItem.stash => true
  | CleanupItem.version _ => false

/-- Is a ledger entry a version entry? -/
def isVersion : CleanupItem → Bool
  | CleanupItem.stash => false
  | CleanupItem.version _ => true

/-- The part of the module state `handleExit` reads and writes. -/
structure ExitState where
  isExiting : Bool
  cleanup : List CleanupItem
  deriving DecidableEq, Repr

/-- Result of one call to `handleExit`: the state afterwards, whether the
ledger replay ran, the git operations it attempted, and the `process.exit`
code if the call exited the process. -/
structure ExitRes where
  st : ExitState
  ran : Bool
  ops : List GitOp
  exited : Option Nat
  deriving Repr

/-- `handleExit(code)` from `src/index.ts`: a one-shot latch.  If `isExiting`
is already set the body is skipped entirely (no replay, no `process.exit`);
otherwise `isExiting` is set first, then — only when the ledger is non-empty —
`performCleanup` replays it, and finally `process.exit(code)` runs. -/
def handleExit (ok : Nat → Bool) (code : Nat) (st : ExitState) : ExitRes :=
  if st.isExiting then ⟨st, false, [], none⟩
  else
    let st1 : ExitState := ⟨true, st.cleanup⟩
    if st1.cleanup.isEmpty then ⟨st1, false, [], some code⟩
    else
      let p := performCleanup ok st1.cleanup
      ⟨⟨true, p.2⟩, true, p.1, some code⟩

/-- Oracle for one run of `main` (from the `if (interrupted) return` at line
366 onwards — everything earlier performs no git mutation and never touches
the ledger).  `intr k` is the value of the module flag `interrupted` at the
`k`-th syntactic read site; Boolean fields say whether the corresponding
external call succeeds or what the corresponding prompt answers. -/
structure MainEnv where
  intr : Nat → Bool
  statusOk : Bool
  dirty : Bool
  commitChanges : Bool
  stillContinue : Bool
  stashPushOk : Bool
  addOk : Bool
  dryOk : Bool
  checkoutOk : Bool
  npmOk : Bool
  dryTag : String
  stashPopOk : Bool
  revparseOk : Bool
  remoteOk : Bool
  remoteAvail : Bool
  pushWanted : Bool
  pushOk : Bool
  cleanupOk : Nat → Bool

/-- Observable outcome of one run of `main`.
`exitCode`: the argument of `process.exit` if `main` itself called
`handleExit` (a plain `return` after an interrupt, and the natural end of
`main`, leave it `none`).  `cleanupRan`/`cleanupOps`: whether `handleExit`
replayed the ledger and the git operations the replay attempted.
`ledgerAtExit`: the ledger at the moment `main` stopped (before any replay).
`finalLedger`: the `cleanup` array after `main` (after replay / clearing).
`trace`: every value the `cleanup` array takes during normal execution, in
order, starting from `[]`.  `stashPushAttempted`: whether `git stash push`
was issued. -/
structure RunResult where
  exitCode : Option Nat
  cleanupRan : Bool
  cleanupOps : List GitOp
  ledgerAtExit : List CleanupItem
  finalLedger : List CleanupItem
  trace : List (List CleanupItem)
  stashPushAttempted : Bool
  deriving Repr

/-- A plain `return` out of `main` (taken when an `if (interrupted) return`
fires, or when stashing is cancelled): no `handleExit` call from `main`. -/
def finishReturn (trace : List (List CleanupItem)) (led : List CleanupItem)
    (spa : Bool) : RunResult :=
  ⟨none, false, [], led, led, trace, spa⟩

/-- A `handleExit(code)` call from inside `main` (the module state at that
point always has `isExiting = false`: every earlier `handleExit` call in
`main` is followed by `return`). -/
def finishExit (e : MainEnv) (code : Nat) (trace : List (List CleanupItem))
    (led : List CleanupItem) (spa : Bool) : RunResult :=
  let r := handleExit e.cleanupOk code ⟨false, led⟩
  ⟨r.exited, r.ran, r.ops, led, r.st.cleanup, trace, spa⟩

/-- Lines 484–487: `if (!interrupted) { cleanup = []; ... }` and `main` falls
off the end (the process then exits 0 naturally — success). -/
def finalPhase (e : MainEnv) (trace : List (List CleanupItem))
    (led : List CleanupItem) (spa : Bool) : RunResult :=
  if e.intr 7 then finishReturn trace led spa
  else ⟨none, false, [], led, [], trace ++ [[]], spa⟩

/-- Lines 458–482: the push step.  `git revparse` or `git remote` throwing,
or `git push`/`git push --tags`/`git fetch` throwing, lands in the `catch`
that calls `handleExit(1, error)`.  A falsy remote skips the push with a
warning; declining the prompt or an interrupt read just skips it. -/
def pushPhase (e : MainEnv) (trace : List (List CleanupItem))
    (led : List CleanupItem) (spa : Bool) : RunResult :=
  if e.intr 5 then finishReturn trace led spa
  else if !e.revparseOk then finishExit e 1 trace led spa
  else if !e.remoteOk then finishExit e 1 trace led spa
  else if !e.remoteAvail then finalPhase e trace led spa
  else if e.pushWanted && !e.intr 6 then
    if e.pushOk then finalPhase e trace led spa
    else finishExit e 1 trace led spa
  else finalPhase e trace led spa

/-- Lines 444–456: if stashing happened, `git stash pop`; on success all
stash entries are removed from the ledger
(`cleanup.filter(item => item.type !== 'stash')`); on failure the `catch`
calls `handleExit(1, error)` with the ledger untouched. -/
def unstashPhase (e : MainEnv) (trace : List (List CleanupItem))
    (led : List CleanupItem) (stashed spa : Bool) : RunResult :=
  if stashed then
    if e.stashPopOk then
      let led2 := led.filter (fun i => !isStash i)
      pushPhase e (trace ++ [led2]) led2 spa
    else finishExit e 1 trace led spa
  else pushPhase e trace led spa

/-- Lines 418–442: the bump step.  When `interrupted` reads false: `git add .`,
the dry `npm version --no-git-tag-version` (whose stdout is the recorded tag),
`git checkout package.json`, the real `npm version`; only after all four
succeed is `{ type: 'version', data: { tag } }` pushed.  Any throw lands in
the `catch` → `handleExit(1, error)` with nothing recorded.  When
`interrupted` reads true: `handleExit(1)` with the ledger as it stands. -/
def bumpPhase (e : MainEnv) (trace : List (List CleanupItem))
    (led : List CleanupItem) (stashed spa : Bool) : RunResult :=
  if e.intr 4 then finishExit e 1 trace led spa
  else if e.addOk && e.dryOk && e.checkoutOk && e.npmOk then
    let led2 := led ++ [CleanupItem.version (some e.dryTag)]
    unstashPhase e (trace ++ [led2]) led2 stashed spa
  else finishExit e 1 trace led spa

/-- `main` from line 366 on.  Status check (lines 368–390): a throw calls
`handleExit(1, error)`; on a dirty tree the user is asked to include the
changes, and declining both that and the stash option aborts via
`handleExit(1)`.  Stash step (lines 397–416): only entered when
`stashChanges` was chosen; the `interrupted` flag is read immediately before
`git stash push`, and `{ type: 'stash' }` is recorded only after the push
returns; an interrupt at that read cancels stashing and returns without
recording anything; a throwing push goes to `handleExit(1, error)` with
nothing recorded. -/
def mainRun (e : MainEnv) : RunResult :=
  let t0 : List (List CleanupItem) := [[]]
  if e.intr 0 then finishReturn t0 [] false
  else if !e.statusOk then finishExit e 1 t0 [] false
  else
    let stashChanges :=
      if e.dirty then
        if !e.commitChanges && !e.intr 1 then e.stillContinue else false
      else false
    if e.dirty && (!e.commitChanges && !e.intr 1) && !e.stillContinue then
      finishExit e 1 t0 [] false
    else if e.intr 2 then finishReturn t0 [] false
    else if stashChanges then
      if e.intr 3 then finishReturn t0 [] false
      else if e.stashPushOk then
        bumpPhase e (t0 ++ [[CleanupItem.stash]]) [CleanupItem.stash] true true
      else finishExit e 1 t0 [] true
    else bumpPhase e t0 [] false false

/-- A ledger with no stash entry. -/
def noStashL (l : List CleanupItem) : Bool := l.all (fun i => !isStash i)

/-- A ledger with no version entry. -/
def noVersionL (l : List CleanupItem) : Bool := l.all (fun i => !isVersion i)

/-- The ledger shapes reachable in a run: at most one stash entry and at most
one version entry, with the stash entry (when both are present) inserted
before the version entry — i.e. empty, a single entry, or a stash entry
followed by a version entry. -/
def ledgerShape : List CleanupItem → Bool
  | [] => true
  | [_] => true
  | [a, b] => isStash a && isVersion b
  | _ => false

/-- No `git reset --hard` occurs in the list. -/
def noReset : List GitOp → Bool
  | [] => true
  | GitOp.hardReset :: _ => false
  | _ :: rest => noReset rest

/-- Every `git reset --hard` (version revert) precedes every
`git stash pop` in the operation trace. -/
def resetPrecedesPop : List GitOp → Bool
  | [] => true
  | GitOp.stashPop :: rest => noReset rest
  | _ :: rest => resetPrecedesPop rest

/-- The seven bump kinds of `validBumpTypes`. -/
inductive BumpKind where
  | major | minor | patch | premajor | preminor | prepatch | prerelease
  deriving DecidableEq, Repr

/-- A semantic version `MAJOR.MINOR.PATCH[-[IDENT.]N]`; the pre-release part
carries an optional alphabetic identifier and a numeric counter (`2.0.0-0`
has no identifier, `2.0.0-beta.0` has identifier `beta`). -/
structure SemVer where
  major : Nat
  minor : Nat
  patch : Nat
  pre : Option (Option String × Nat)
  deriving DecidableEq, Repr

/-- Modelled from the spec: the external VersionMutator's
`computeNext(currentVersion, kind, preId)` (the `npm version` bump
computation, not part of this repository's sources) — "increments the
requested component and resets lower-precedence components to zero per
standard semantic-versioning rules; for pre-release kinds, either starts a
new pre-release counter at 0 or increments an existing one sharing the same
identifier".  `preId = none` models invoking it without `--preid`. -/
def computeNext (v : SemVer) (k : BumpKind) (preId : Option String) : SemVer :=
  match k with
  | BumpKind.major => ⟨v.major + 1, 0, 0, none⟩
  | BumpKind.minor => ⟨v.major, v.minor + 1, 0, none⟩
  | BumpKind.patch => ⟨v.major, v.minor, v.patch + 1, none⟩
  | BumpKind.premajor => ⟨v.major + 1, 0, 0, some (preId, 0)⟩
  | BumpKind.preminor => ⟨v.major, v.minor + 1, 0, some (preId, 0)⟩
  | BumpKind.prepatch => ⟨v.major, v.minor, v.patch + 1, some (preId, 0)⟩
  | BumpKind.prerelease =>
      match v.pre with
      | some (id, n) =>
          match preId with
          | some p =>
              if id = some p then ⟨v.major, v.minor, v.patch, some (id, n + 1)⟩
              else ⟨v.major, v.minor, v.patch, some (some p, 0)⟩
          | none => ⟨v.major, v.minor, v.patch, some (id, n + 1)⟩
      | none => ⟨v.major, v.minor, v.patch + 1, some (preId, 0)⟩

/-- Rendering of a version as the `v`-prefixed tag `npm version` prints and
uses as the git tag name. -/
def tagOf (v : SemVer) : String :=
  "v" ++ toString v.major ++ "." ++ toString v.minor ++ "." ++ toString v.patch
    ++ (match v.pre with
        | none => ""
        | some (none, n) => "-" ++ toString n
        | some (some id, n) => "-" ++ id ++ "." ++ toString n)

/-- The tag recorded in the ledger's version entry (lines 426–431): the
stdout of `npm version --no-git-tag-version --no-commit-hooks <bumpType>` —
this dry invocation passes **no** `--preid` flag, whatever `config.preId`
holds. -/
def recordedRollbackTag (cur : SemVer) (k : BumpKind) (_preId : Option String) :
    String :=
  tagOf (computeNext cur k none)

/-- The tag the real bump creates (lines 421–430): `npm version <bumpType>
-m … -f`, with `--preid=<preId>` appended exactly when `config.preId` is a
non-empty string. -/
def createdTag (cur : SemVer) (k : BumpKind) (preId : Option String) : String :=
  tagOf (computeNext cur k preId)

/-- No `git stash pop` occurs in the operation trace. -/
def noPop : List GitOp → Bool
  | [] => true
  | GitOp.stashPop :: _ => false
  | _ :: rest => noPop rest

/-- The replay the spec describes when every inverse succeeds: each item
contributes its full inverse, in list order. -/
def fullReplay : List CleanupItem → List GitOp
  | [] => []
  | i :: rest => fullOps i ++ fullReplay rest

/-- A run in which everything succeeds up to the push, and the push fails:
clean tree, no interrupts, bump succeeds, remote present, user confirms the
push, `git push` throws. -/
def envPushFail : MainEnv :=
  { intr := fun _ => false, statusOk := true, dirty := false,
    commitChanges := false, stillContinue := false, stashPushOk := true,
    addOk := true, dryOk := true, checkoutOk := true, npmOk := true,
    dryTag := "v1.3.0", stashPopOk := true, revparseOk := true,
    remoteOk := true, remoteAvail := true, pushWanted := true, pushOk := false,
    cleanupOk := fun _ => true }

/-- A run with a dirty tree where the user declines to include the changes
and accepts stashing, the bump succeeds, and the happy-path stash pop
fails. -/
def envPopFail : MainEnv :=
  { envPushFail with
    dirty := true, stillContinue := true, stashPopOk := false, pushOk := true }

/-- A run with a stash recorded in which the bump step fails (e.g. the real
`npm version` throws with a tag collision). -/
def envBumpFail : MainEnv :=
  { envPushFail with dirty := true, stillContinue := true, npmOk := false }

/-- A fully successful run on a clean tree. -/
def envClean : MainEnv := { envPushFail with pushOk := true }

/-- A dirty-tree run heading for the stash step, with the interrupt flag
set from read site 3 (the check immediately before `git stash push`) on. -/
def envIntrAtStash : MainEnv :=
  { envPushFail with
    intr := fun k => decide (3 ≤ k), dirty := true, stillContinue := true }

theorem replayItem_filter (ok : Nat → Bool) (n : Nat) (i : CleanupItem) :
    (replayItem ok n i).1.filter isPrimary = [primaryOf i] := by
  cases i with
  | stash => simp [replayItem, isPrimary, primaryOf, List.filter]
  | version t =>
      cases t <;> simp only [replayItem] <;> split <;>
        simp [List.filter, isPrimary, primaryOf]

theorem replayLoop_filter (ok : Nat → Bool) (L : List CleanupItem) :
    ∀ n, (replayLoop ok n L).filter isPrimary = L.map primaryOf := by
  induction L with
  | nil => intro n; simp [replayLoop]
  | cons i rest ih =>
      intro n
      simp [replayLoop, List.filter_append, replayItem_filter, ih]

theorem replayLoop_allOk (L : List CleanupItem) :
    ∀ n, replayLoop (fun _ => true) n L = fullReplay L := by
  induction L with
  | nil => intro n; simp [replayLoop, fullReplay]
  | cons i rest ih =>
      intro n
      cases i with
      | stash => simp [replayLoop, replayItem, fullReplay, fullOps, ih]
      | version t =>
          cases t <;> simp [replayLoop, replayItem, fullReplay, fullOps, ih]

theorem noPop_append (a b : List GitOp) :
    noPop (a ++ b) = (noPop a && noPop b) := by
  induction a with
  | nil => simp [noPop]
  | cons o rest ih => cases o <;> simp [noPop, ih]

theorem noStashL_cons (i : CleanupItem) (l : List CleanupItem) :
    noStashL (i :: l) = (!isStash i && noStashL l) := by
  simp [noStashL]

theorem replayLoop_noPop (ok : Nat → Bool) (L : List CleanupItem)
    (h : noStashL L = true) : ∀ n, noPop (replayLoop ok n L) = true := by
  induction L with
  | nil => intro n; simp [replayLoop, noPop]
  | cons i rest ih =>
      intro n
      rw [noStashL_cons, Bool.and_eq_true] at h
      cases i with
      | stash => simp [isStash] at h
      | version t =>
          have hr := ih h.2 (replayItem ok n (CleanupItem.version t)).2
          cases t <;> simp only [replayLoop, replayItem] <;> split <;>
            simp_all [noPop_append, noPop]

theorem noStashL_reverse (L : List CleanupItem) :
    noStashL L.reverse = noStashL L := by
  simp [noStashL, List.all_reverse]

theorem performCleanup_noPop (ok : Nat → Bool) (L : List CleanupItem)
    (h : noStashL L = true) : noPop (performCleanup ok L).1 = true := by
  have h' : noStashL L.reverse = true := by rw [noStashL_reverse]; exact h
  exact replayLoop_noPop ok L.reverse h' 0

theorem performCleanup_resetPop (ok : Nat → Bool) (L : List CleanupItem)
    (h : ledgerShape L = true) :
    resetPrecedesPop (performCleanup ok L).1 = true := by
  cases L with
  | nil => simp [performCleanup, replayLoop, resetPrecedesPop]
  | cons a l1 =>
      cases l1 with
      | nil =>
          cases a with
          | stash =>
              simp [performCleanup, replayLoop, replayItem, resetPrecedesPop,
                noReset]
          | version t =>
              cases t <;>
                simp only [performCleanup, List.reverse_cons, List.reverse_nil,
                  List.nil_append, replayLoop, replayItem] <;> split <;>
                simp [resetPrecedesPop, noReset]
      | cons b l2 =>
          cases l2 with
          | nil =>
              cases a with
              | version t => simp [ledgerShape, isStash] at h
              | stash =>
                  cases b with
                  | stash => simp [ledgerShape, isVersion] at h
                  | version t =>
                      cases t <;>
                        simp only [performCleanup, List.reverse_cons,
                          List.reverse_nil, List.nil_append, List.cons_append,
                          replayLoop, replayItem] <;> split <;>
                        simp [resetPrecedesPop, noReset]
          | cons c l3 => simp [ledgerShape] at h

theorem ledgerShape_filter_stash (l : List CleanupItem)
    (h : ledgerShape l = true) :
    ledgerShape (l.filter (fun i => !isStash i)) = true := by
  cases l with
  | nil => simp [ledgerShape]
  | cons a l1 =>
      cases l1 with
      | nil => cases a <;> simp [ledgerShape, List.filter, isStash]
      | cons b l2 =>
          cases l2 with
          | nil =>
              cases a with
              | version t => simp [ledgerShape, isStash] at h
              | stash =>
                  cases b with
                  | stash => simp [ledgerShape, isVersion] at h
                  | version t =>
                      simp [ledgerShape, List.filter, isStash, isVersion]
          | cons c l3 => simp [ledgerShape] at h

theorem ledgerShape_append_version (l : List CleanupItem) (t : Option String)
    (h : ledgerShape l = true) (hv : noVersionL l = true) :
    ledgerShape (l ++ [CleanupItem.version t]) = true := by
  cases l with
  | nil => simp [ledgerShape]
  | cons a l1 =>
      cases l1 with
      | nil =>
          cases a with
          | stash => simp [ledgerShape, isStash, isVersion]
          | version s => simp [noVersionL, isVersion] at hv
      | cons b l2 =>
          cases l2 with
          | nil =>
              cases b with
              | stash => cases a <;> simp [ledgerShape, isVersion] at h
              | version s => simp [noVersionL, isVersion] at hv
          | cons c l3 => simp [ledgerShape] at h

theorem noStashL_filter_stash (l : List CleanupItem) :
    noStashL (l.filter (fun i => !isStash i)) = true := by
  simp only [noStashL, List.all_eq_true, List.mem_filter]
  intro i hi
  exact hi.2

theorem finishExit_c10 (e : MainEnv) (code : Nat)
    (tr : List (List CleanupItem)) (led : List CleanupItem) (spa : Bool)
    (ht : tr.all ledgerShape = true) (hl : ledgerShape led = true) :
    ((finishExit e code tr led spa).trace).all ledgerShape = true ∧
    resetPrecedesPop (finishExit e code tr led spa).cleanupOps = true := by
  refine ⟨ht, ?_⟩
  simp only [finishExit, handleExit, Bool.false_eq_true, if_false]
  split
  · simp [resetPrecedesPop]
  · exact performCleanup_resetPop e.cleanupOk led hl

theorem finalPhase_c10 (e : MainEnv) (tr : List (List CleanupItem))
    (led : List CleanupItem) (spa : Bool)
    (ht : tr.all ledgerShape = true) :
    ((finalPhase e tr led spa).trace).all ledgerShape = true ∧
    resetPrecedesPop (finalPhase e tr led spa).cleanupOps = true := by
  unfold finalPhase finishReturn
  split <;> simp_all [resetPrecedesPop, ledgerShape]

theorem pushPhase_c10 (e : MainEnv) (tr : List (List CleanupItem))
    (led : List CleanupItem) (spa : Bool)
    (ht : tr.all ledgerShape = true) (hl : ledgerShape led = true) :
    ((pushPhase e tr led spa).trace).all ledgerShape = true ∧
    resetPrecedesPop (pushPhase e tr led spa).cleanupOps = true := by
  unfold pushPhase
  split
  · simp_all [finishReturn, resetPrecedesPop]
  · split
    · exact finishExit_c10 e 1 tr led spa ht hl
    · split
      · exact finishExit_c10 e 1 tr led spa ht hl
      · split
        · exact finalPhase_c10 e tr led spa ht
        · split
          · split
            · exact finalPhase_c10 e tr led spa ht
            · exact finishExit_c10 e 1 tr led spa ht hl
          · exact finalPhase_c10 e tr led spa ht

theorem unstashPhase_c10 (e : MainEnv) (tr : List (List CleanupItem))
    (led : List CleanupItem) (stashed spa : Bool)
    (ht : tr.all ledgerShape = true) (hl : ledgerShape led = true) :
    ((unstashPhase e tr led stashed spa).trace).all ledgerShape = true ∧
    resetPrecedesPop (unstashPhase e tr led stashed spa).cleanupOps = true := by
  unfold unstashPhase
  split
  · split
    · have h2 := ledgerShape_filter_stash led hl
      refine pushPhase_c10 e _ _ spa ?_ h2
      simp [List.all_append, ht, h2]
    · exact finishExit_c10 e 1 tr led spa ht hl
  · exact pushPhase_c10 e tr led spa ht hl

theorem bumpPhase_c10 (e : MainEnv) (tr : List (List CleanupItem))
    (led : List CleanupItem) (stashed spa : Bool)
    (ht : tr.all ledgerShape = true) (hl : ledgerShape led = true)
    (hv : noVersionL led = true) :
    ((bumpPhase e tr led stashed spa).trace).all ledgerShape = true ∧
    resetPrecedesPop (bumpPhase e tr led stashed spa).cleanupOps = true := by
  unfold bumpPhase
  split
  · exact finishExit_c10 e 1 tr led spa ht hl
  · split
    · have h2 := ledgerShape_append_version led (some e.dryTag) hl hv
      refine unstashPhase_c10 e _ _ stashed spa ?_ h2
      simp [List.all_append, ht, h2]
    · exact finishExit_c10 e 1 tr led spa ht hl

theorem finishExit_noStash (e : MainEnv) (code : Nat)
    (tr : List (List CleanupItem)) (led : List CleanupItem) (spa : Bool)
    (ht : tr.all noStashL = true) (hl : noStashL led = true) :
    ((finishExit e code tr led spa).trace).all noStashL = true ∧
    noPop (finishExit e code tr led spa).cleanupOps = true ∧
    (finishExit e code tr led spa).stashPushAttempted = spa := by
  refine ⟨ht, ?_, rfl⟩
  simp only [finishExit, handleExit, Bool.false_eq_true, if_false]
  split
  · simp [noPop]
  · exact performCleanup_noPop e.cleanupOk led hl

theorem finalPhase_noStash (e : MainEnv) (tr : List (List CleanupItem))
    (led : List CleanupItem) (spa : Bool)
    (ht : tr.all noStashL = true) :
    ((finalPhase e tr led spa).trace).all noStashL = true ∧
    noPop (finalPhase e tr led spa).cleanupOps = true ∧
    (finalPhase e tr led spa).stashPushAttempted = spa := by
  unfold finalPhase finishReturn
  split
  · exact ⟨ht, by simp [noPop], rfl⟩
  · refine ⟨?_, by simp [noPop], rfl⟩
    simp [List.all_append, ht, noStashL]

theorem pushPhase_noStash (e : MainEnv) (tr : List (List CleanupItem))
    (led : List CleanupItem) (spa : Bool)
    (ht : tr.all noStashL = true) (hl : noStashL led = true) :
    ((pushPhase e tr led spa).trace).all noStashL = true ∧
    noPop (pushPhase e tr led spa).cleanupOps = true ∧
    (pushPhase e tr led spa).stashPushAttempted = spa := by
  unfold pushPhase
  split
  · simp_all [finishReturn, noPop]
  · split
    · exact finishExit_noStash e 1 tr led spa ht hl
    · split
      · exact finishExit_noStash e 1 tr led spa ht hl
      · split
        · exact finalPhase_noStash e tr led spa ht
        · split
          · split
            · exact finalPhase_noStash e tr led spa ht
            · exact finishExit_noStash e 1 tr led spa ht hl
          · exact finalPhase_noStash e tr led spa ht

theorem unstashPhase_noStash (e : MainEnv) (tr : List (List CleanupItem))
    (led : List CleanupItem) (stashed spa : Bool)
    (ht : tr.all noStashL = true) (hl : noStashL led = true) :
    ((unstashPhase e tr led stashed spa).trace).all noStashL = true ∧
    noPop (unstashPhase e tr led stashed spa).cleanupOps = true ∧
    (unstashPhase e tr led stashed spa).stashPushAttempted = spa := by
  unfold unstashPhase
  split
  · split
    · have h2 := noStashL_filter_stash led
      refine pushPhase_noStash e _ _ spa ?_ h2
      simp [List.all_append, ht, h2]
    · exact finishExit_noStash e 1 tr led spa ht hl
  · exact pushPhase_noStash e tr led spa ht hl

theorem bumpPhase_noStash (e : MainEnv) (tr : List (List CleanupItem))
    (led : List CleanupItem) (stashed spa : Bool)
    (ht : tr.all noStashL = true) (hl : noStashL led = true) :
    ((bumpPhase e tr led stashed spa).trace).all noStashL = true ∧
    noPop (bumpPhase e tr led stashed spa).cleanupOps = true ∧
    (bumpPhase e tr led stashed spa).stashPushAttempted = spa := by
  unfold bumpPhase
  split
  · exact finishExit_noStash e 1 tr led spa ht hl
  · split
    · have h2 : noStashL (led ++ [CleanupItem.version (some e.dryTag)]) = true := by
        simp only [noStashL, List.all_eq_true] at hl ⊢
        intro i hi
        rcases List.mem_append.mp hi with h | h
        · exact hl i h
        · rcases List.mem_singleton.mp h with rfl; simp [isStash]
      refine unstashPhase_noStash e _ _ stashed spa ?_ h2
      simp [List.all_append, ht, h2]
    · exact finishExit_noStash e 1 tr led spa ht hl

theorem handleExit_isExiting (ok : Nat → Bool) (c : Nat) (s : ExitState) :
    (handleExit ok c s).st.isExiting = true := by
  unfold handleExit
  split
  · assumption
  · dsimp only
    split <;> rfl

theorem handleExit_of_isExiting (ok : Nat → Bool) (c : Nat) (s : ExitState)
    (h : s.isExiting = true) : handleExit ok c s = ⟨s, false, [], none⟩ := by
  simp [handleExit, h]

/-- C2: replaying the cleanup ledger visits the recorded actions in exactly
reverse insertion order and invokes the corresponding inverse for each —
whatever the failure pattern `ok` of the individual git calls, the primary
inverse operation (stash pop / hard reset) of every item is attempted, in
reverse ledger order (failures are swallowed per item, never propagated);
and when every call succeeds the attempted operations are exactly each
item's full inverse (stash pop; hard reset plus tag deletion) in reverse
insertion order. -/
theorem replayAll_reverse_order (ok : Nat → Bool) (L : List CleanupItem) :
    ((performCleanup ok L).1).filter isPrimary = L.reverse.map primaryOf ∧
    (performCleanup (fun _ => true) L).1 = fullReplay L.reverse :=
  ⟨replayLoop_filter ok L.reverse 0, replayLoop_allOk L.reverse 0⟩

/-- C3 counterexample: after `handleExit` replays a non-empty ledger, the
`cleanup` array is **not** empty — `cleanup.reverse()` reverses in place and
nothing clears it, so the entries survive (in reversed order). -/
theorem ledgerClearedAfterReplay_cex :
    (handleExit (fun _ => true) 0
      ⟨false, [CleanupItem.stash, CleanupItem.version (some "v1.3.0")]⟩).ran
        = true ∧
    (handleExit (fun _ => true) 0
      ⟨false, [CleanupItem.stash, CleanupItem.version (some "v1.3.0")]⟩).st.cleanup
        ≠ [] := by
  exact ⟨rfl, by decide⟩

/-- C3 amended: after the replay triggered by `handleExit`, the ledger holds
exactly the original entries in reversed order (it is never cleared on this
path; the process exits immediately afterwards, so the stale array is not
consulted again). -/
theorem ledgerReversedAfterReplay (ok : Nat → Bool) (code : Nat)
    (L : List CleanupItem) :
    (handleExit ok code ⟨false, L⟩).st.cleanup = L.reverse := by
  unfold handleExit
  simp only [Bool.false_eq_true, if_false]
  split
  · next h =>
      simp only [List.isEmpty_iff] at h
      simp [h]
  · rfl

/-- C9: the exit routine is a one-shot latch — after any `handleExit` call,
`isExiting` is set, so a second call (e.g. from a second SIGINT while the
first replay is unwinding) performs no replay, issues no git operations,
does not exit, and leaves the state untouched. -/
theorem handleExit_one_shot (ok1 ok2 : Nat → Bool) (c1 c2 : Nat)
    (st : ExitState) :
    handleExit ok2 c2 (handleExit ok1 c1 st).st =
      ⟨(handleExit ok1 c1 st).st, false, [], none⟩ :=
  handleExit_of_isExiting ok2 c2 _ (handleExit_isExiting ok1 c1 st)


/-- C10: in every environment, every value the `cleanup` ledger takes during
a run has one of the reachable shapes — at most one stash entry, at most one
version entry, and the stash entry (when both are present) inserted before
the version entry — and consequently every replay reverts the version commit
(`git reset --hard`) before it attempts the stash pop. -/
theorem ledger_invariant (e : MainEnv) :
    ((mainRun e).trace).all ledgerShape = true ∧
    resetPrecedesPop (mainRun e).cleanupOps = true := by
  simp only [mainRun]
  split_ifs <;>
    first
      | exact ⟨rfl, rfl⟩
      | exact finishExit_c10 e 1 [[]] [] false rfl rfl
      | exact finishExit_c10 e 1 [[]] [] true rfl rfl
      | exact bumpPhase_c10 e [[], [CleanupItem.stash]] [CleanupItem.stash]
          true true rfl rfl rfl
      | exact bumpPhase_c10 e [[]] [] false false rfl rfl rfl

/-- C7: when the status check finds a clean working tree (`gitStatus.files`
empty), no stash entry ever appears in the ledger, no replay triggered
during that run attempts a stash pop, and `git stash push` is never
issued. -/
theorem clean_tree_no_stash (e : MainEnv) (hd : e.dirty = false) :
    ((mainRun e).trace).all noStashL = true ∧
    noPop (mainRun e).cleanupOps = true ∧
    (mainRun e).stashPushAttempted = false := by
  simp only [mainRun, hd, Bool.false_and, Bool.false_eq_true, if_false]
  split_ifs <;>
    first
      | exact ⟨rfl, rfl, rfl⟩
      | exact finishExit_noStash e 1 [[]] [] false rfl rfl
      | exact bumpPhase_noStash e [[]] [] false false rfl rfl

/-- C7 witness: a concrete clean-tree run. -/
theorem clean_tree_no_stash_witness :
    ((mainRun envClean).trace).all noStashL = true ∧
    noPop (mainRun envClean).cleanupOps = true ∧
    (mainRun envClean).stashPushAttempted = false :=
  clean_tree_no_stash envClean rfl

/-- C8: when the interruption flag is already set at the read immediately
before `git stash push` (read site 3), no stash entry is ever recorded, no
replay of that run attempts a stash pop against the never-created stash,
and the stash operation is never started. -/
theorem interrupt_before_stash (e : MainEnv) (h3 : e.intr 3 = true) :
    ((mainRun e).trace).all noStashL = true ∧
    noPop (mainRun e).cleanupOps = true ∧
    (mainRun e).stashPushAttempted = false := by
  simp only [mainRun, h3, if_true]
  split_ifs <;>
    first
      | exact ⟨rfl, rfl, rfl⟩
      | exact finishExit_noStash e 1 [[]] [] false rfl rfl
      | exact bumpPhase_noStash e [[]] [] false false rfl rfl

/-- C8 witness: a concrete dirty-tree run heading for the stash step with
the interrupt flag raised just before `git stash push`. -/
theorem interrupt_before_stash_witness :
    ((mainRun envIntrAtStash).trace).all noStashL = true ∧
    noPop (mainRun envIntrAtStash).cleanupOps = true ∧
    (mainRun envIntrAtStash).stashPushAttempted = false :=
  interrupt_before_stash envIntrAtStash (by decide)

/-- C1 counterexample: concrete run (clean tree, bump succeeds, user
confirms the push, `git push` throws).  Contrary to the claim that the run
outcome is still Success with no rollback, `main` calls
`handleExit(1, error)`: the replay runs, hard-resets the version commit and
deletes its tag, and the process exits with code 1. -/
theorem push_failure_no_rollback_cex :
    (mainRun envPushFail).exitCode = some 1 ∧
    (mainRun envPushFail).cleanupRan = true ∧
    (mainRun envPushFail).cleanupOps =
      [GitOp.hardReset, GitOp.deleteTag "v1.3.0"] :=
  ⟨rfl, rfl, rfl⟩

/-- C1 amended: if the Pushing step fails after the version commit and tag
were created (ledger holds the version entry), the run is **not** a success:
`handleExit(1, error)` replays the ledger — reverting the local version
commit with `git reset --hard HEAD~1` — and exits with code 1. -/
theorem push_failure_rolls_back (e : MainEnv)
    (h0 : e.intr 0 = false) (hst : e.statusOk = true) (hd : e.dirty = false)
    (h2 : e.intr 2 = false) (h4 : e.intr 4 = false)
    (hb : (e.addOk && e.dryOk && e.checkoutOk && e.npmOk) = true)
    (h5 : e.intr 5 = false) (hrev : e.revparseOk = true)
    (hrem : e.remoteOk = true) (hav : e.remoteAvail = true)
    (hw : e.pushWanted = true) (h6 : e.intr 6 = false)
    (hp : e.pushOk = false) :
    (mainRun e).exitCode = some 1 ∧ (mainRun e).cleanupRan = true ∧
    (mainRun e).ledgerAtExit = [CleanupItem.version (some e.dryTag)] ∧
    GitOp.hardReset ∈ (mainRun e).cleanupOps := by
  simp only [mainRun, bumpPhase, unstashPhase, pushPhase, finishExit,
    handleExit, performCleanup, replayLoop, replayItem, h0, hst, hd, h2, h4,
    hb, h5, hrev, hrem, hav, hw, h6, hp, Bool.false_and, Bool.and_false,
    Bool.false_eq_true, Bool.not_false, Bool.not_true, Bool.and_self,
    if_false, if_true]
  refine ⟨rfl, rfl, rfl, ?_⟩
  split
  · rename_i h
    simp at h
  · split <;> simp

/-- C1 witness for the amended theorem. -/
theorem push_failure_rolls_back_witness :
    (mainRun envPushFail).exitCode = some 1 ∧
    (mainRun envPushFail).cleanupRan = true ∧
    (mainRun envPushFail).ledgerAtExit =
      [CleanupItem.version (some envPushFail.dryTag)] ∧
    GitOp.hardReset ∈ (mainRun envPushFail).cleanupOps :=
  push_failure_rolls_back envPushFail rfl rfl rfl rfl rfl rfl rfl rfl rfl rfl
    rfl rfl rfl

/-- C5 counterexample: concrete run (dirty tree, changes stashed, bump
succeeds, the happy-path `git stash pop` throws).  Contrary to the claim
that the stash "is not popped again during rollback", the stash entry is
still in the ledger (it is only removed on a successful pop), so the replay
attempts `git stash pop` once more after reverting the version commit. -/
theorem stash_left_in_place_cex :
    (mainRun envPopFail).cleanupOps =
      [GitOp.hardReset, GitOp.deleteTag "v1.3.0", GitOp.stashPop] ∧
    GitOp.stashPop ∈ (mainRun envPopFail).cleanupOps :=
  ⟨rfl, by decide⟩

/-- C5 amended: if the happy-path stash pop fails, the run is fatal
(`handleExit(1, error)`, exit code 1) and the replay covers **both**
remaining ledger entries: it reverts the version commit first and then
attempts `git stash pop` again for the still-recorded stash entry (whose
failure, like any per-item failure, is swallowed).  The version revert
always precedes the pop attempt. -/
theorem stash_pop_failure_rolls_back (e : MainEnv)
    (h0 : e.intr 0 = false) (hst : e.statusOk = true) (hd : e.dirty = true)
    (hcc : e.commitChanges = false) (h1 : e.intr 1 = false)
    (hsc : e.stillContinue = true) (h2 : e.intr 2 = false)
    (h3 : e.intr 3 = false) (hsp : e.stashPushOk = true)
    (h4 : e.intr 4 = false)
    (hb : (e.addOk && e.dryOk && e.checkoutOk && e.npmOk) = true)
    (hpop : e.stashPopOk = false) :
    (mainRun e).exitCode = some 1 ∧
    (mainRun e).ledgerAtExit =
      [CleanupItem.stash, CleanupItem.version (some e.dryTag)] ∧
    GitOp.stashPop ∈ (mainRun e).cleanupOps ∧
    GitOp.hardReset ∈ (mainRun e).cleanupOps ∧
    resetPrecedesPop (mainRun e).cleanupOps = true := by
  simp only [mainRun, bumpPhase, unstashPhase, finishExit, handleExit,
    performCleanup, replayLoop, replayItem, h0, hst, hd, hcc, h1, hsc, h2,
    h3, hsp, h4, hb, hpop, Bool.false_and, Bool.and_false, Bool.true_and,
    Bool.and_true, Bool.false_eq_true, Bool.not_false, Bool.not_true,
    Bool.and_self, if_false, if_true]
  refine ⟨rfl, rfl, ?_, ?_, ?_⟩ <;>
    · split
      · rename_i h
        simp at h
      · split <;> simp [resetPrecedesPop, noReset]

/-- C5 witness for the amended theorem. -/
theorem stash_pop_failure_rolls_back_witness :
    (mainRun envPopFail).exitCode = some 1 ∧
    (mainRun envPopFail).ledgerAtExit =
      [CleanupItem.stash, CleanupItem.version (some envPopFail.dryTag)] ∧
    GitOp.stashPop ∈ (mainRun envPopFail).cleanupOps ∧
    GitOp.hardReset ∈ (mainRun envPopFail).cleanupOps ∧
    resetPrecedesPop (mainRun envPopFail).cleanupOps = true :=
  stash_pop_failure_rolls_back envPopFail rfl rfl rfl rfl rfl rfl rfl rfl rfl
    rfl rfl rfl

/-- C6: if the bump step fails (e.g. `npm version` throws with a tag
collision) after a stash was recorded, no version entry is ever recorded in
the ledger, the rollback replays exactly the previously recorded stash entry
(one `git stash pop`), and the run exits with code 1 (Failed). -/
theorem bump_failure_rolls_back_stash (e : MainEnv)
    (h0 : e.intr 0 = false) (hst : e.statusOk = true) (hd : e.dirty = true)
    (hcc : e.commitChanges = false) (h1 : e.intr 1 = false)
    (hsc : e.stillContinue = true) (h2 : e.intr 2 = false)
    (h3 : e.intr 3 = false) (hsp : e.stashPushOk = true)
    (h4 : e.intr 4 = false)
    (hb : (e.addOk && e.dryOk && e.checkoutOk && e.npmOk) = false) :
    (mainRun e).exitCode = some 1 ∧
    (mainRun e).ledgerAtExit = [CleanupItem.stash] ∧
    (mainRun e).cleanupOps = [GitOp.stashPop] ∧
    ((mainRun e).trace).all noVersionL = true := by
  simp only [mainRun, bumpPhase, finishExit, handleExit, performCleanup,
    replayLoop, replayItem, h0, hst, hd, hcc, h1, hsc, h2, h3, hsp, h4, hb,
    Bool.false_and, Bool.and_false, Bool.true_and, Bool.and_true,
    Bool.false_eq_true, Bool.not_false, Bool.not_true, Bool.and_self,
    if_false, if_true]
  refine ⟨?_, ?_, ?_, ?_⟩ <;> first
    | rfl
    | trivial

/-- C6 witness: a concrete run in which the real `npm version` fails after
the stash was recorded. -/
theorem bump_failure_rolls_back_stash_witness :
    (mainRun envBumpFail).exitCode = some 1 ∧
    (mainRun envBumpFail).ledgerAtExit = [CleanupItem.stash] ∧
    (mainRun envBumpFail).cleanupOps = [GitOp.stashPop] ∧
    ((mainRun envBumpFail).trace).all noVersionL = true :=
  bump_failure_rolls_back_stash envBumpFail rfl rfl rfl rfl rfl rfl rfl rfl
    rfl rfl rfl

/-- C4: the tag recorded for rollback diverges from the tag the real bump
creates.  The dry compute (`npm version --no-git-tag-version
--no-commit-hooks <type>`) passes no `--preid`, while the real apply passes
`--preid=<preId>` whenever a pre-release identifier was chosen, so for a
pre-release kind with an identifier the ledger records a different tag than
the one actually created: from `1.2.3` with kind `premajor` and identifier
`beta`, the ledger records `v2.0.0-0` but the commit step creates
`v2.0.0-beta.0` — rollback would delete a non-existent tag and leave the
real one in place. -/
theorem recorded_tag_mismatch :
    recordedRollbackTag ⟨1, 2, 3, none⟩ BumpKind.premajor (some "beta")
        = "v2.0.0-0" ∧
    createdTag ⟨1, 2, 3, none⟩ BumpKind.premajor (some "beta")
        = "v2.0.0-beta.0" ∧
    recordedRollbackTag ⟨1, 2, 3, none⟩ BumpKind.premajor (some "beta") ≠
      createdTag ⟨1, 2, 3, none⟩ BumpKind.premajor (some "beta") := by
  refine ⟨by decide, by decide, by decide⟩
